import Mathlib

/-!
Shallow embedding of the dark-spider repository (spider.py, link_validator.py,
url_populator.py) in Lean 4, together with proofs about the embedded code.

Strings of the Python source are modelled as `List Char`; the Python string
methods used by the code (`split`, `in`, `lower`, `endswith`) are embedded as
executable functions on `List Char` with Python semantics.  SQLite tables are
modelled as Lean lists of records; each SQL statement of the source becomes an
explicit list transformation.  Wall-clock time is an explicit `Nat` parameter;
the network is an explicit parameter describing the outcome of each request.
-/

namespace DarkSpider

/-- Embeds Python `str.lower` (the pages and keywords handled by the program
are ASCII, where `Char.toLower` agrees with Python's case folding). -/
def lower (l : List Char) : List Char := l.map Char.toLower

/-- Embeds the Python substring test `pat in l` for strings: `true` iff `pat`
occurs contiguously inside `l` (the empty pattern occurs in every string). -/
def strContains (l pat : List Char) : Bool :=
  pat.isPrefixOf l ||
    match l with
    | [] => false
    | _ :: rest => strContains rest pat

/-- Embeds Python `l.endswith(suf)`. -/
def pyEndsWith (l suf : List Char) : Bool := suf.isSuffixOf l

/-- Fuelled worker for `pySplit`; the fuel is an upper bound on the length of
the list still to be scanned, so the `0, l` fallback line is never reached
from `pySplit` itself. -/
def pySplitF (sep : List Char) : Nat → List Char → List (List Char)
  | _, [] => [[]]
  | 0, l => [l]
  | fuel + 1, c :: rest =>
    if !sep.isEmpty && sep.isPrefixOf (c :: rest) then
      [] :: pySplitF sep fuel ((c :: rest).drop sep.length)
    else
      match pySplitF sep fuel rest with
      | [] => [[c]]
      | s :: ss => (c :: s) :: ss

/-- Embeds Python `l.split(sep)` for a non-empty separator `sep`: the list of
segments of `l` between non-overlapping occurrences of `sep`, scanned left to
right.  E.g. `split "://" "a://b" = [a, b]` and `split "/" "ab" = [ab]`. -/
def pySplit (sep l : List Char) : List (List Char) := pySplitF sep l.length l

theorem pySplitF_fuel (sep : List Char) :
    ∀ (f : Nat) (l : List Char), l.length ≤ f → pySplitF sep f l = pySplit sep l := by
  intro f
  induction f using Nat.strong_induction_on with
  | _ f ih =>
    intro l hl
    rcases l with _ | ⟨c, rest⟩
    · rcases f with _ | f <;> rfl
    · rcases f with _ | f
      · simp at hl
      · simp only [List.length_cons, Nat.add_le_add_iff_right] at hl
        show pySplitF sep (f + 1) (c :: rest) = pySplitF sep (rest.length + 1) (c :: rest)
        rw [pySplitF, pySplitF]
        by_cases hpre : (!sep.isEmpty && sep.isPrefixOf (c :: rest)) = true
        · rw [if_pos hpre, if_pos hpre]
          have hsep : 1 ≤ sep.length := by
            rcases sep with _ | ⟨x, xs⟩
            · simp at hpre
            · simp
          have hlen : ((c :: rest).drop sep.length).length ≤ rest.length := by
            simp only [List.length_drop, List.length_cons]
            omega
          rw [ih f (by omega) _ (le_trans hlen hl),
              ih rest.length (by omega) _ hlen]
        · rw [if_neg hpre, if_neg hpre,
              ih f (by omega) rest hl,
              ih rest.length (by omega) rest (le_refl _)]

/-- Unfolding equation for `pySplit` on a cons cell. -/
theorem pySplit_cons (sep : List Char) (c : Char) (rest : List Char) :
    pySplit sep (c :: rest) =
      if !sep.isEmpty && sep.isPrefixOf (c :: rest) then
        [] :: pySplit sep ((c :: rest).drop sep.length)
      else
        match pySplit sep rest with
        | [] => [[c]]
        | s :: ss => (c :: s) :: ss := by
  show pySplitF sep (rest.length + 1) (c :: rest) = _
  rw [pySplitF]
  by_cases hpre : (!sep.isEmpty && sep.isPrefixOf (c :: rest)) = true
  · rw [if_pos hpre, if_pos hpre]
    have hsep : 1 ≤ sep.length := by
      rcases sep with _ | ⟨x, xs⟩
      · simp at hpre
      · simp
    rw [pySplitF_fuel sep rest.length _ (by simp [List.length_drop]; omega)]
  · rw [if_neg hpre, if_neg hpre,
        pySplitF_fuel sep rest.length rest (le_refl _)]

@[simp] theorem pySplit_nil (sep : List Char) : pySplit sep [] = [[]] := rfl

theorem pySplit_ne_nil (sep l : List Char) : pySplit sep l ≠ [] := by
  induction l with
  | nil => simp
  | cons c rest ih =>
    rw [pySplit_cons]
    split
    · simp
    · rcases h : pySplit sep rest with _ | ⟨s, ss⟩ <;> simp

/-- A string that does not contain the separator splits into itself alone. -/
theorem pySplit_of_not_contains {sep l : List Char}
    (h : strContains l sep = false) : pySplit sep l = [l] := by
  induction l with
  | nil => rfl
  | cons c rest ih =>
    rw [strContains, Bool.or_eq_false_iff] at h
    rw [pySplit_cons, if_neg (by simp [h.1]), ih h.2]

/-- The first character of a non-empty pattern must occur for the pattern to
occur. -/
theorem strContains_of_head_not_mem {sc : Char} {sep' l : List Char}
    (h : sc ∉ l) : strContains l (sc :: sep') = false := by
  induction l with
  | nil => rfl
  | cons c rest ih =>
    rw [strContains]
    have hne : sc ≠ c := fun he => h (he ▸ List.mem_cons_self c rest)
    have : (sc :: sep').isPrefixOf (c :: rest) = false := by
      simp [List.isPrefixOf, hne]
    rw [this, ih (fun hm => h (List.mem_cons_of_mem c hm))]
    rfl

/-- Splitting `a ++ sep ++ b` when the head character of `sep` does not occur
in `a`: the first segment is exactly `a`. -/
theorem pySplit_append {sc : Char} {sep' a b : List Char} (h : sc ∉ a) :
    pySplit (sc :: sep') (a ++ (sc :: sep') ++ b) =
      a :: pySplit (sc :: sep') b := by
  induction a with
  | nil =>
    simp only [List.nil_append]
    rw [show ((sc :: sep') ++ b : List Char) = sc :: (sep' ++ b) by simp,
        pySplit_cons]
    have hpre : (sc :: sep').isPrefixOf (sc :: (sep' ++ b)) = true := by
      rw [ List.isPrefixOf_iff_prefix]
      exact ⟨b, by simp⟩
    rw [if_pos (by simp [hpre])]
    have : (sc :: (sep' ++ b)).drop (sc :: sep').length = b := by
      simp
    rw [this]
  | cons x a' ih =>
    have hne : sc ≠ x := fun he => h (he ▸ List.mem_cons_self x a')
    rw [show ((x :: a') ++ (sc :: sep') ++ b : List Char)
          = x :: (a' ++ (sc :: sep') ++ b) by simp,
        pySplit_cons]
    have hbeq : (sc == x) = false := beq_eq_false_iff_ne.mpr hne
    have hpre : (sc :: sep').isPrefixOf (x :: (a' ++ (sc :: sep') ++ b)) = false := by
      rw [List.isPrefixOf, hbeq]
      rfl
    rw [if_neg (by rw [hpre]; simp), ih (fun hm => h (List.mem_cons_of_mem x hm))]

/-- `strContains` decides contiguous-substring occurrence. -/
theorem strContains_iff_occurs {l pat : List Char} :
    strContains l pat = true ↔ pat <:+: l := by
  induction l with
  | nil =>
    rw [strContains]
    constructor
    · intro h
      simp only [Bool.or_false] at h
      have hp := List.isPrefixOf_iff_prefix.mp h
      exact List.IsPrefix.isInfix hp
    · intro h
      have : pat = [] := List.eq_nil_of_infix_nil h
      subst this
      rfl
  | cons c rest ih =>
    rw [strContains]
    constructor
    · intro h
      simp only [Bool.or_eq_true] at h
      rcases h with h1 | h2
      · exact List.IsPrefix.isInfix ( List.isPrefixOf_iff_prefix.mp h1)
      · exact List.infix_cons (ih.mp h2)
    · intro h
      rcases List.infix_cons_iff.mp h with h1 | h2
      · simp [ List.isPrefixOf_iff_prefix.mpr h1]
      · simp [ih.mpr h2]

/-! ### link_validator.py -/

/-- The character class of the compiled pattern of `OnionValidator.__init__`:
a lowercase letter `a`-`z` or a digit `2`-`7`. -/
def isOnionChar (c : Char) : Bool :=
  ('a' ≤ c && c ≤ 'z') || ('2' ≤ c && c ≤ '7')

/-- Whether `l` consists of exactly 56 characters of the onion character
class followed by the literal `.onion` (the pattern body, without the
end-anchor subtlety). -/
def onionExact (l : List Char) : Bool :=
  l.length == 62 && (l.take 56).all isOnionChar && l.drop 56 == ".onion".data

/-- Embeds `bool(re.compile(r"^[a-z2-7]\x7b56\x7d\.onion$").match(l))` from
`OnionValidator`.  Python's `$` anchor matches at the end of the string and
also just before a newline that is the last character, so the pattern also
accepts the exact host form followed by one trailing newline. -/
def onionPatternMatch (l : List Char) : Bool :=
  onionExact l || (l.getLast? == some '\n' && onionExact l.dropLast)

/-- The separator `"://"` used by `_is_valid_syntax`. -/
def schemeSep : List Char := [':', '/', '/']

/-- Embeds `url.split("://")[-1].split("/")[0]` from
`OnionValidator._is_valid_syntax`: Python `[-1]` takes the last segment and
`[0]` the first, and `str.split` always returns at least one segment, so
neither index can fail. -/
def extract_domain (url : List Char) : List Char :=
  (pySplit ['/'] ((pySplit schemeSep url).getLastD [])).headD []

/-- Embeds `OnionValidator._is_valid_syntax`.  The `except IndexError`
branch of the source is dead code because `split` never returns an empty
list, so the function is total. -/
def is_valid_syntax (url : List Char) : Bool :=
  onionPatternMatch (extract_domain url)

/-- Embeds the `OnionSite` dataclass.  `response_time` (a Python float of
seconds) is modelled as a rational number. -/
structure OnionSite where
  url : List Char
  is_active : Bool := false
  response_time : ℚ := 0
  status_code : Nat := 0
  title : List Char := "N/A".data
deriving DecidableEq, Repr

/-- The seizure-banner phrases of `OnionValidator._check_for_seizure`. -/
def seizure_keywords : List (List Char) :=
  ["this hidden site has been seized".data,
   "federal bureau of investigation".data,
   "operation onymous".data,
   "law enforcement".data]

/-- Embeds `OnionValidator._check_for_seizure`: any of the phrases occurs in
the lowercased page body. -/
def check_for_seizure (html_content : List Char) : Bool :=
  seizure_keywords.any (fun keyword => strContains (lower html_content) keyword)

/-- The literal `"<title>"`. -/
def titleOpenTag : List Char := "<title>".data

/-- The literal `"</title>"`. -/
def titleCloseTag : List Char := "</title>".data

/-- Embeds the title-extraction block of `OnionValidator.validate_url`:
`if "<title>" in text: try: text.split("<title>")[1].split("</title>")[0]
except IndexError: "No Title"`, leaving the current title unchanged when
`"<title>"` does not occur.  Python `[1]` and `[0]` are the `Option`-indexed
accesses; an out-of-range index raises `IndexError`, caught as `"No Title"`. -/
def extract_title (text current : List Char) : List Char :=
  if strContains text titleOpenTag then
    match (pySplit titleOpenTag text).get? 1 with
    | some seg =>
      match (pySplit titleCloseTag seg).get? 0 with
      | some t => t
      | none => "No Title".data
    | none => "No Title".data
  else current

/-- The outcome of the single `session.get` issued by `validate_url`,
made an explicit parameter: a response (status code, elapsed seconds,
decoded body) or one of the three caught exception classes
(`requests.exceptions.Timeout`, `requests.exceptions.ConnectionError`,
any other `Exception`). -/
inductive NetOutcome where
  | ok (status : Nat) (elapsedSeconds : ℚ) (text : List Char)
  | timeout
  | connectionError
  | otherError
deriving DecidableEq, Repr

/-- Embeds `OnionValidator.validate_url`.  Returns the `OnionSite` result
together with a flag recording whether the network request was issued.
Mirrors the source: syntax-invalid input returns the default record without
touching the network; on a response, status code and elapsed time are
recorded, then a 200 body is classified as seized or active (with title
extraction); on any caught exception the defaults are returned. -/
def validate_url (url : List Char) (net : NetOutcome) : OnionSite × Bool :=
  let site_data : OnionSite := { url := url }
  if is_valid_syntax url then
    match net with
    | .ok status elapsed text =>
      let s1 := { site_data with status_code := status, response_time := elapsed }
      if status = 200 then
        if check_for_seizure text then
          ({ s1 with title := "[SEIZED]".data }, true)
        else
          ({ s1 with is_active := true, title := extract_title text s1.title }, true)
      else
        (s1, true)
    | .timeout => (site_data, true)
    | .connectionError => (site_data, true)
    | .otherError => (site_data, true)
  else
    (site_data, false)

/-! ### spider.py and url_populator.py: the seed store -/

/-- One row of the `seed_list` table
(`url TEXT PRIMARY KEY, last_checked DATETIME, failure_count INTEGER
DEFAULT 0, is_active BOOLEAN`).  `last_checked` is nullable; timestamps are
modelled as `Nat`. -/
structure SeedRecord where
  url : List Char
  last_checked : Option Nat := none
  failure_count : Nat := 0
  is_active : Bool := true
deriving DecidableEq, Repr

/-- The `seed_list` table, in row order. -/
abbrev SeedStore := List SeedRecord

/-- Embeds `SELECT url FROM seed_list WHERE is_active = 1` from
`run_automated_scan`: the urls of the active rows, in table order. -/
def listActive (s : SeedStore) : List (List Char) :=
  (s.filter (fun r => r.is_active)).map (fun r => r.url)

/-- Embeds `PersistentDarkWebMonitor.update_seed_status`: on success,
`UPDATE seed_list SET failure_count = 0, last_checked = now, is_active = 1
WHERE url = ?`; on failure, `UPDATE seed_list SET failure_count =
failure_count + 1, last_checked = now WHERE url = ?` followed by the
3-strikes sweep `DELETE FROM seed_list WHERE failure_count >= 3`. -/
def update_seed_status (s : SeedStore) (url : List Char) (success : Bool)
    (now : Nat) : SeedStore :=
  if success then
    s.map (fun r =>
      if r.url = url then
        { r with failure_count := 0, last_checked := some now, is_active := true }
      else r)
  else
    (s.map (fun r =>
      if r.url = url then
        { r with failure_count := r.failure_count + 1, last_checked := some now }
      else r)).filter (fun r => r.failure_count < 3)

/-- Embeds `INSERT OR IGNORE INTO seed_list (url, is_active) VALUES (?, 1)`
from `PersistentDarkWebMonitor.add_seeds`: no-op when a row with this
primary key exists, otherwise append a row with the column defaults
(`failure_count` 0, `last_checked` NULL) and `is_active` 1. -/
def insert_or_ignore (s : SeedStore) (url : List Char) : SeedStore :=
  if s.any (fun r => r.url = url) then s
  else s ++ [{ url := url, last_checked := none, failure_count := 0, is_active := true }]

/-- Embeds `PersistentDarkWebMonitor.add_seeds` (one `INSERT OR IGNORE`
per url, in order). -/
def add_seeds (s : SeedStore) (urls : List (List Char)) : SeedStore :=
  urls.foldl insert_or_ignore s

/-- Embeds `SeedPopulator.update_database`: `INSERT OR IGNORE INTO seed_list
(url, is_active, failure_count) VALUES (?, 1, 0)` per onion.  The explicit
`failure_count = 0` coincides with the column default, so each insertion is
the same row transformation as `add_seeds`. -/
def update_database (s : SeedStore) (onions : List (List Char)) : SeedStore :=
  onions.foldl insert_or_ignore s

/-- The `matches` table, as its (url, keyword) rows in insertion order (the
autoincrement id is the row position; the timestamp column defaults to the
write time and is not modelled). -/
abbrev MatchStore := List (List Char × List Char)

/-- Embeds `PersistentDarkWebMonitor.save_match`: one
`INSERT INTO matches (url, keyword) VALUES (?, ?)` per keyword, executed in
one `executemany` inside a single connection context. -/
def save_match (m : MatchStore) (url : List Char) (keywords : List (List Char)) :
    MatchStore :=
  m ++ keywords.map (fun k => (url, k))

/-! ### spider.py: the content fetcher -/

/-- An HTTP response as `fetch_page` consumes it: status code, the
`Content-Type` header (`''` when absent), the raw byte payload
(`response.content`, bytes modelled as `Nat`), and the decoded body
(`response.text`). -/
structure HttpResponse where
  status : Nat
  contentType : List Char
  content : List Nat
  text : List Char
deriving DecidableEq, Repr

/-- `config.QUARANTINE_DIR`. -/
def quarantine_dir : List Char := "quarantine".data

/-- Embeds `os.path.basename(url)` (POSIX): the part of `url` after its
last `/`, the whole of `url` when it has none. -/
def pyBasename (p : List Char) : List Char :=
  (pySplit ['/'] p).getLastD []

/-- Embeds `DarkWebMonitor.fetch_page`.  The outcome of the `session.get`
is the explicit parameter `net` (`none` = a raised `RequestException`,
caught by the source).  Returns the `Optional[str]` result together with
the list of quarantine file writes (file name, bytes written) performed. -/
def fetch_page (url : List Char) (net : Option HttpResponse) :
    Option (List Char) × List (List Char × List Nat) :=
  match net with
  | none => (none, [])
  | some response =>
    if response.status = 200 then
      if strContains response.contentType "application/zip".data
          || strContains response.contentType "application/sql".data
          || pyEndsWith url ".zip".data || pyEndsWith url ".sql".data then
        let base := pyBasename url
        let filename :=
          quarantine_dir ++ ['/'] ++ (if base = [] then "download.file".data else base)
        (none, [(filename, response.content)])
      else
        (some response.text, [])
    else
      (none, [])

/-! ### spider.py: the orchestrator -/

/-- Embeds the keyword scan
`[k for k in keywords if k.lower() in html_content.lower()]` of
`run_automated_scan` (and `scan_for_keywords`). -/
def keywordMatch (keywords : List (List Char)) (html_content : List Char) :
    List (List Char) :=
  keywords.filter (fun k => strContains (lower html_content) (lower k))

/-- Python truthiness of the `Optional[str]` returned by `fetch_page`, as
tested by `if html_content:`: `None` and the empty string are falsy. -/
def pyTruthyStr : Option (List Char) → Bool
  | none => false
  | some [] => false
  | some (_ :: _) => true

/-- One observable action of a `run_automated_scan` run, in order. -/
inductive ScanEvent where
  | fetchAttempt (url : List Char)
  | statusSuccess (url : List Char)
  | statusFailure (url : List Char)
  | matchSaved (url : List Char) (found : List (List Char))
  | sleepSeconds (n : Nat)
deriving DecidableEq, Repr

/-- The per-seed body of the `for url in seeds` loop of
`run_automated_scan`, iterated over the snapshotted seed list.  `fetch`
gives the `fetch_page` result for each url; `now` is the commit timestamp
of the run.  Produces the final seed store, the final matches table and the
trace of actions. -/
def scanLoop (fetch : List Char → Option (List Char))
    (keywords : List (List Char)) (now : Nat) :
    List (List Char) → SeedStore → MatchStore →
      SeedStore × MatchStore × List ScanEvent
  | [], s, m => (s, m, [])
  | url :: rest, s, m =>
    let html_content := fetch url
    if pyTruthyStr html_content then
      let s1 := update_seed_status s url true now
      let found := keywordMatch keywords (html_content.getD [])
      if found.isEmpty then
        let r := scanLoop fetch keywords now rest s1 m
        (r.1, r.2.1,
          .fetchAttempt url :: .statusSuccess url :: .sleepSeconds 2 :: r.2.2)
      else
        let m1 := save_match m url found
        let r := scanLoop fetch keywords now rest s1 m1
        (r.1, r.2.1,
          .fetchAttempt url :: .statusSuccess url :: .matchSaved url found ::
            .sleepSeconds 2 :: r.2.2)
    else
      let s1 := update_seed_status s url false now
      let r := scanLoop fetch keywords now rest s1 m
      (r.1, r.2.1,
        .fetchAttempt url :: .statusFailure url :: .sleepSeconds 2 :: r.2.2)

/-- Embeds `PersistentDarkWebMonitor.run_automated_scan`: snapshot the
active seeds, return immediately when there are none, otherwise run the
per-seed loop over the snapshot. -/
def run_automated_scan (fetch : List Char → Option (List Char))
    (keywords : List (List Char)) (now : Nat) (s : SeedStore) (m : MatchStore) :
    SeedStore × MatchStore × List ScanEvent :=
  let seeds := listActive s
  if seeds.isEmpty then (s, m, [])
  else scanLoop fetch keywords now seeds s m

/-! ### Claim C3: the address syntax check -/

/-- The host shape stated by the specification: exactly 56 characters from
the class a-z, 2-7, followed by the literal `.onion`. -/
def specOnionShape (l : List Char) : Prop :=
  ∃ base, l = base ++ ".onion".data ∧ base.length = 56 ∧
    ∀ c ∈ base, isOnionChar c = true

theorem onionExact_iff {l : List Char} :
    onionExact l = true ↔ specOnionShape l := by
  unfold onionExact
  simp only [Bool.and_eq_true, beq_iff_eq, List.all_eq_true]
  constructor
  · rintro ⟨⟨hlen, hall⟩, hdrop⟩
    refine ⟨l.take 56, ?_, ?_, hall⟩
    · conv_lhs => rw [← List.take_append_drop 56 l]
      rw [hdrop]
    · rw [List.length_take]
      omega
  · rintro ⟨base, rfl, hlen, hall⟩
    have ht : (base ++ ".onion".data).take 56 = base := List.take_left' hlen
    have hd : (base ++ ".onion".data).drop 56 = ".onion".data := List.drop_left' hlen
    refine ⟨⟨?_, ?_⟩, hd⟩
    · rw [List.length_append, hlen]
      rfl
    · rw [ht]
      exact hall

theorem onionPatternMatch_iff {l : List Char} :
    onionPatternMatch l = true ↔
      specOnionShape l ∨ ∃ l', l = l' ++ ['\n'] ∧ specOnionShape l' := by
  unfold onionPatternMatch
  simp only [Bool.or_eq_true, Bool.and_eq_true, beq_iff_eq]
  constructor
  · rintro (h | ⟨hlast, hexact⟩)
    · exact Or.inl (onionExact_iff.mp h)
    · refine Or.inr ⟨l.dropLast, ?_, onionExact_iff.mp hexact⟩
      have hne : l ≠ [] := by rintro rfl; simp at hlast
      have := List.dropLast_append_getLast hne
      rw [List.getLast?_eq_getLast l hne] at hlast
      have hc : l.getLast hne = '\n' := by injection hlast
      rw [← hc]
      exact this.symm
  · rintro (h | ⟨l', rfl, h⟩)
    · exact Or.inl (onionExact_iff.mpr h)
    · refine Or.inr ⟨?_, ?_⟩
      · rw [List.getLast?_concat]
      · rw [List.dropLast_concat]
        exact onionExact_iff.mpr h

theorem onionChar_not_colon_slash {c : Char} (h : isOnionChar c = true) :
    c ≠ ':' ∧ c ≠ '/' := by
  constructor <;> rintro rfl <;> exact absurd h (by decide)

/-- When a url contains neither `:` nor `/`, the scheme/path stripping of
`_is_valid_syntax` leaves it unchanged. -/
theorem extract_domain_of_no_sep {url : List Char}
    (h1 : ':' ∉ url) (h2 : '/' ∉ url) : extract_domain url = url := by
  unfold extract_domain
  rw [show schemeSep = ':' :: ['/', '/'] from rfl,
      pySplit_of_not_contains (strContains_of_head_not_mem h1),
      show (['/'] : List Char) = '/' :: [] from rfl,
      show ([url] : List (List Char)).getLastD [] = url from rfl,
      pySplit_of_not_contains (strContains_of_head_not_mem h2)]
  rfl

/-- Claim C3, amended: after stripping a scheme up to `://` and anything from the
first `/`, `_is_valid_syntax` accepts exactly the host segments that are 56
characters from the class a-z, 2-7 followed by `.onion`, **or such a host
followed by one trailing newline** (Python's `$` anchor also matches just
before a final newline); in particular every string of exactly 56 such
characters plus `.onion` is accepted.  The function is total (never
raises). -/
theorem syntax_check_spec :
    (∀ base : List Char, base.length = 56 → (∀ c ∈ base, isOnionChar c = true) →
      is_valid_syntax (base ++ ".onion".data) = true) ∧
    (∀ url : List Char,
      is_valid_syntax url = true ↔
        (specOnionShape (extract_domain url) ∨
          ∃ l', extract_domain url = l' ++ ['\n'] ∧ specOnionShape l')) := by
  constructor
  · intro base hlen hall
    have hc : ':' ∉ base ++ ".onion".data := by
      intro hm
      rcases List.mem_append.mp hm with hm | hm
      · exact absurd (hall _ hm) (by decide)
      · exact absurd hm (by decide)
    have hs : '/' ∉ base ++ ".onion".data := by
      intro hm
      rcases List.mem_append.mp hm with hm | hm
      · exact absurd (hall _ hm) (by decide)
      · exact absurd hm (by decide)
    unfold is_valid_syntax
    rw [extract_domain_of_no_sep hc hs]
    exact onionPatternMatch_iff.mpr (Or.inl ⟨base, rfl, hlen, hall⟩)
  · intro url
    exact onionPatternMatch_iff

/-- Witness for `syntax_check_spec` at a concrete host. -/
theorem syntax_check_spec_witness :
    is_valid_syntax (List.replicate 56 'a' ++ ".onion".data) = true :=
  syntax_check_spec.1 (List.replicate 56 'a') (by decide) (by decide)

/-- The concrete input refuting C3 as stated: a 56-character base plus
`.onion` plus one trailing newline. -/
def newlineHost : List Char := List.replicate 56 'a' ++ ".onion\n".data

/-- Claim C3 counterexample: `_is_valid_syntax` accepts `newlineHost` although its
host segment (the string itself: it has no scheme and no slash) is not of
the form 56 characters from a-z, 2-7 followed by `.onion` — it carries a
trailing newline, so the claimed "for any other length or character set it
returns false" fails. -/
theorem syntax_check_newline_counterexample :
    is_valid_syntax newlineHost = true ∧
      extract_domain newlineHost = newlineHost ∧
      ¬ specOnionShape newlineHost := by
  refine ⟨by decide, by decide, ?_⟩
  rintro ⟨base, heq, hlen, -⟩
  have h63 : newlineHost.length = 63 := by decide
  have h62 : newlineHost.length = 62 := by
    rw [heq, List.length_append, hlen]
    rfl
  omega

/-! ### Claim C4: title extraction in the reachability probe -/

theorem isPrefixOf_false_head {a b : Char} {p l : List Char} (h : a ≠ b) :
    (a :: p).isPrefixOf (b :: l) = false := by
  show (a == b && p.isPrefixOf l) = false
  rw [beq_eq_false_iff_ne.mpr h]
  rfl

theorem isPrefixOf_false_second {a b c : Char} {p l : List Char} (h : b ≠ c) :
    (a :: b :: p).isPrefixOf (a :: c :: l) = false := by
  show (a == a && (b == c && p.isPrefixOf l)) = false
  rw [beq_eq_false_iff_ne.mpr h]
  simp

/-- `"<title>"` does not occur in `t ++ "</title>" ++ post` when `t` and
`post` contain no `<`. -/
theorem titleOpen_not_in_close_tail {t post : List Char}
    (ht : '<' ∉ t) (hp : '<' ∉ post) :
    strContains (t ++ titleCloseTag ++ post) titleOpenTag = false := by
  induction t with
  | nil =>
    have hm : '<' ∉ '/' :: ("title>".data ++ post) := by
      intro hmem
      rcases List.mem_cons.mp hmem with he | hmem
      · exact absurd he (by decide)
      · rcases List.mem_append.mp hmem with hmem | hmem
        · exact absurd hmem (by decide)
        · exact hp hmem
    rw [show ((([] : List Char) ++ titleCloseTag ++ post : List Char))
          = '<' :: ('/' :: ("title>".data ++ post)) from rfl,
        strContains,
        show titleOpenTag = '<' :: 't' :: "itle>".data from rfl,
        isPrefixOf_false_second (by decide)]
    simp only [Bool.false_or]
    exact strContains_of_head_not_mem hm
  | cons x t' ih =>
    have hx : '<' ≠ x := fun he => ht (he ▸ List.mem_cons_self x t')
    rw [show ((x :: t') ++ titleCloseTag ++ post : List Char)
          = x :: (t' ++ titleCloseTag ++ post) from rfl,
        strContains,
        show titleOpenTag = '<' :: 't' :: "itle>".data from rfl,
        isPrefixOf_false_head hx]
    have := ih (fun hm => ht (List.mem_cons_of_mem x hm))
    rw [show ('<' :: 't' :: "itle>".data : List Char) = titleOpenTag from rfl, this]
    rfl

/-- The clean-tag behaviour of the split chain: for a body
`pre ++ "<title>" ++ t ++ "</title>" ++ post` where `pre`, `t`, `post`
contain no `<`, the extracted title is exactly `t`. -/
theorem extract_title_between_tags {pre t post current : List Char}
    (hpre : '<' ∉ pre) (ht : '<' ∉ t) (hpost : '<' ∉ post) :
    extract_title (pre ++ titleOpenTag ++ (t ++ titleCloseTag ++ post)) current
      = t := by
  set rest := t ++ titleCloseTag ++ post with hrest
  have hcont : strContains (pre ++ titleOpenTag ++ rest) titleOpenTag = true :=
    strContains_iff_occurs.mpr ⟨pre, rest, by simp⟩
  unfold extract_title
  rw [hcont]
  simp only [if_true]
  have hsplit1 : pySplit titleOpenTag (pre ++ titleOpenTag ++ rest)
      = pre :: pySplit titleOpenTag rest := by
    rw [show titleOpenTag = '<' :: "title>".data from rfl] at *
    exact pySplit_append hpre
  have hsplit2 : pySplit titleOpenTag rest = [rest] :=
    pySplit_of_not_contains (titleOpen_not_in_close_tail ht hpost)
  rw [hsplit1, hsplit2]
  have hsplit3 : pySplit titleCloseTag rest = t :: pySplit titleCloseTag post := by
    rw [show titleCloseTag = '<' :: "/title>".data from rfl] at *
    exact pySplit_append ht
  simp only [List.get?]
  rw [hsplit3]
  rfl

/-- Claim C4, amended: on a 200 response with no seizure phrase, `validate_url`
classifies the site active; when `"<title>"` occurs and a `"</title>"`
follows, the title is the text between them (per Python's split indexing);
when `"<title>"` does not occur at all, the title keeps its default
`"N/A"` — the `"No Title"` fallback is not taken in that case. -/
theorem title_extraction_spec :
    (∀ url elapsed text, is_valid_syntax url = true →
      check_for_seizure text = false →
      strContains text titleOpenTag = false →
      (validate_url url (.ok 200 elapsed text)).1 =
        { url := url, is_active := true, response_time := elapsed,
          status_code := 200, title := "N/A".data }) ∧
    (∀ url elapsed pre t post, is_valid_syntax url = true →
      check_for_seizure (pre ++ titleOpenTag ++ (t ++ titleCloseTag ++ post)) = false →
      '<' ∉ pre → '<' ∉ t → '<' ∉ post →
      (validate_url url
          (.ok 200 elapsed (pre ++ titleOpenTag ++ (t ++ titleCloseTag ++ post)))).1 =
        { url := url, is_active := true, response_time := elapsed,
          status_code := 200, title := t }) := by
  constructor
  · intro url elapsed text hvalid hseiz hno
    simp only [validate_url, hvalid, hseiz, if_true, if_false, Bool.false_eq_true,
      reduceIte]
    have : extract_title text "N/A".data = "N/A".data := by
      unfold extract_title
      rw [hno]
      rfl
    rw [this]
  · intro url elapsed pre t post hvalid hseiz hpre ht hpost
    simp only [validate_url, hvalid, hseiz, if_true, if_false, Bool.false_eq_true,
      reduceIte]
    rw [extract_title_between_tags hpre ht hpost]

/-- Witness for `title_extraction_spec` at concrete inputs. -/
theorem title_extraction_spec_witness :
    (validate_url (List.replicate 56 'a' ++ ".onion".data)
        (.ok 200 0 "hello".data)).1 =
      { url := List.replicate 56 'a' ++ ".onion".data, is_active := true,
        response_time := 0, status_code := 200, title := "N/A".data } ∧
    (validate_url (List.replicate 56 'a' ++ ".onion".data)
        (.ok 200 0 ("x".data ++ titleOpenTag ++ ("Hi".data ++ titleCloseTag ++ "y".data)))).1 =
      { url := List.replicate 56 'a' ++ ".onion".data, is_active := true,
        response_time := 0, status_code := 200, title := "Hi".data } :=
  ⟨title_extraction_spec.1 _ 0 "hello".data (by decide) (by decide) (by decide),
   title_extraction_spec.2 _ 0 "x".data "Hi".data "y".data (by decide) (by decide)
     (by decide) (by decide) (by decide)⟩

/-- Claim C4 counterexample: a 200 body with no `<title>` tag is classified
active with title `"N/A"`, not the claimed `"No Title"` fallback. -/
theorem title_fallback_counterexample :
    strContains "hello".data titleOpenTag = false ∧
      (validate_url (List.replicate 56 'a' ++ ".onion".data)
          (.ok 200 0 "hello".data)).1.is_active = true ∧
      (validate_url (List.replicate 56 'a' ++ ".onion".data)
          (.ok 200 0 "hello".data)).1.title = "N/A".data ∧
      ("N/A".data : List Char) ≠ "No Title".data := by
  refine ⟨by decide, ?_, ?_, by decide⟩ <;> decide

/-! ### Claim C5: the probe converts all failures to results -/

/-- Claim C5: `validate_url` is a total function of the request outcome (the
source catches `Timeout`, `ConnectionError` and every other `Exception`);
on syntax-invalid input it returns the all-default result without issuing
the network request (the `Bool` component is the request flag), and on
every transport failure it returns an inactive result with status code and
response time at their zero defaults. -/
theorem probe_error_spec :
    (∀ url net, is_valid_syntax url = false →
      validate_url url net =
        ({ url := url, is_active := false, response_time := 0,
           status_code := 0, title := "N/A".data }, false)) ∧
    (∀ url net, (net = .timeout ∨ net = .connectionError ∨ net = .otherError) →
      (validate_url url net).1.is_active = false ∧
      (validate_url url net).1.status_code = 0 ∧
      (validate_url url net).1.response_time = 0 ∧
      (validate_url url net).1.title = "N/A".data) := by
  constructor
  · intro url net hinvalid
    simp [validate_url, hinvalid]
  · intro url net hnet
    by_cases hvalid : is_valid_syntax url = true
    · rcases hnet with rfl | rfl | rfl <;> simp [validate_url, hvalid]
    · rw [Bool.not_eq_true] at hvalid
      simp [validate_url, hvalid]

/-- Witness for `probe_error_spec` at concrete inputs. -/
theorem probe_error_spec_witness :
    validate_url "x".data (.ok 200 0 "hello".data) =
      ({ url := "x".data, is_active := false, response_time := 0,
         status_code := 0, title := "N/A".data }, false) ∧
    (validate_url (List.replicate 56 'a' ++ ".onion".data) .timeout).1.is_active
      = false :=
  ⟨probe_error_spec.1 "x".data _ (by decide),
   (probe_error_spec.2 _ .timeout (Or.inl rfl)).1⟩

/-! ### Claim C1: the three-strikes rule -/

theorem failure_count_lt_three {s : SeedStore} {url : List Char} {now : Nat}
    {r : SeedRecord} (hr : r ∈ update_seed_status s url false now) :
    r.failure_count < 3 := by
  simp only [update_seed_status, Bool.false_eq_true, if_false] at hr
  have := (List.mem_filter.mp hr).2
  exact of_decide_eq_true this

theorem failure_step_src {s : SeedStore} {url : List Char} {now : Nat}
    {r : SeedRecord} (hr : r ∈ update_seed_status s url false now)
    (hurl : r.url = url) :
    ∃ p ∈ s, p.url = url ∧ r.failure_count = p.failure_count + 1 := by
  simp only [update_seed_status, Bool.false_eq_true, if_false] at hr
  obtain ⟨p, hp, hfp⟩ := List.mem_map.mp (List.mem_filter.mp hr).1
  by_cases hcase : p.url = url
  · rw [if_pos hcase] at hfp
    exact ⟨p, hp, hcase, by rw [← hfp]⟩
  · rw [if_neg hcase] at hfp
    rw [← hfp] at hurl
    exact absurd hurl hcase

/-- Claim C1: `update_seed_status` with `success=false` increments the failure
count of the given address and stamps `last_checked`, then deletes every
record whose failure count reaches 3, store-wide; records of other
addresses below the threshold are untouched; `success=true` resets the
count to 0.  Consequently three consecutive failures leave the address
absent from `listActive`, while a fresh record that fails twice, succeeds,
and fails twice more is still listed. -/
theorem three_strikes_spec :
    (∀ s url now r, r ∈ update_seed_status s url false now →
      r.failure_count < 3) ∧
    (∀ s url now (r : SeedRecord), r ∈ s → r.url = url →
      r.failure_count + 1 < 3 →
      { r with failure_count := r.failure_count + 1, last_checked := some now }
        ∈ update_seed_status s url false now) ∧
    (∀ s url now (r : SeedRecord), r ∈ s → r.url = url →
      { r with failure_count := 0, last_checked := some now, is_active := true }
        ∈ update_seed_status s url true now) ∧
    (∀ s url now (r : SeedRecord), r ∈ s → r.url ≠ url →
      r.failure_count < 3 → r ∈ update_seed_status s url false now) ∧
    (∀ s url n1 n2 n3,
      url ∉ listActive (update_seed_status
        (update_seed_status (update_seed_status s url false n1) url false n2)
        url false n3)) ∧
    (∀ s url (r : SeedRecord) n1 n2 n3 n4 n5, r ∈ s → r.url = url →
      r.failure_count = 0 → r.is_active = true →
      url ∈ listActive (update_seed_status (update_seed_status
        (update_seed_status (update_seed_status
          (update_seed_status s url false n1) url false n2) url true n3)
        url false n4) url false n5)) := by
  have hbump : ∀ s (url : List Char) now (r : SeedRecord), r ∈ s → r.url = url →
      r.failure_count + 1 < 3 →
      { r with failure_count := r.failure_count + 1, last_checked := some now }
        ∈ update_seed_status s url false now := by
    intro s url now r hr hurl hlt
    simp only [update_seed_status, Bool.false_eq_true, if_false]
    refine List.mem_filter.mpr ⟨List.mem_map.mpr ⟨r, hr, ?_⟩, ?_⟩
    · rw [if_pos hurl]
    · exact decide_eq_true hlt
  have hreset : ∀ s (url : List Char) now (r : SeedRecord), r ∈ s → r.url = url →
      { r with failure_count := 0, last_checked := some now, is_active := true }
        ∈ update_seed_status s url true now := by
    intro s url now r hr hurl
    simp only [update_seed_status, if_true]
    exact List.mem_map.mpr ⟨r, hr, by rw [if_pos hurl]⟩
  refine ⟨fun s url now r hr => failure_count_lt_three hr, hbump, hreset,
    ?_, ?_, ?_⟩
  · intro s url now r hr hurl hlt
    simp only [update_seed_status, Bool.false_eq_true, if_false]
    exact List.mem_filter.mpr ⟨List.mem_map.mpr ⟨r, hr, by rw [if_neg hurl]⟩,
      decide_eq_true hlt⟩
  · intro s url n1 n2 n3 hmem
    obtain ⟨r3, hr3f, hurl3⟩ := List.mem_map.mp hmem
    have hr3 := (List.mem_filter.mp hr3f).1
    have hlt3 := failure_count_lt_three hr3
    obtain ⟨p2, hp2, hurl2, hc2⟩ := failure_step_src hr3 hurl3
    obtain ⟨p1, hp1, hurl1, hc1⟩ := failure_step_src hp2 hurl2
    obtain ⟨p0, _, _, hc0⟩ := failure_step_src hp1 hurl1
    omega
  · intro s url r n1 n2 n3 n4 n5 hr hurl hcount hact
    have h1 := hbump s url n1 r hr hurl (by omega)
    have h2 := hbump _ url n2 _ h1 hurl (by simp [hcount])
    have h3 := hreset _ url n3 _ h2 hurl
    have h4 := hbump _ url n4 _ h3 hurl (by simp)
    have h5 := hbump _ url n5 _ h4 hurl (by simp)
    refine List.mem_map.mpr ⟨_, List.mem_filter.mpr ⟨h5, ?_⟩, hurl⟩
    simp [hact]

/-- Witness for `three_strikes_spec` at a concrete store and address. -/
theorem three_strikes_spec_witness :
    ({ url := "u".data, last_checked := some 7, failure_count := 1,
       is_active := true } : SeedRecord)
      ∈ update_seed_status
          [{ url := "u".data, last_checked := none, failure_count := 0,
             is_active := true }] "u".data false 7 ∧
    "u".data ∈ listActive (update_seed_status (update_seed_status
        (update_seed_status (update_seed_status
          (update_seed_status
            [{ url := "u".data, last_checked := none, failure_count := 0,
               is_active := true }] "u".data false 1) "u".data false 2)
          "u".data true 3) "u".data false 4) "u".data false 5) :=
  ⟨three_strikes_spec.2.1
      [{ url := "u".data, last_checked := none, failure_count := 0,
         is_active := true }] "u".data 7
      { url := "u".data, last_checked := none, failure_count := 0,
        is_active := true } (by simp) rfl (by decide),
   three_strikes_spec.2.2.2.2.2
      [{ url := "u".data, last_checked := none, failure_count := 0,
         is_active := true }] "u".data
      { url := "u".data, last_checked := none, failure_count := 0,
        is_active := true } 1 2 3 4 5 (by simp) rfl rfl rfl⟩

/-! ### Claim C10: status updates for an address that is not stored -/

/-- Claim C10: `update_seed_status` on an address with no record never inserts
one: the success path leaves the store exactly as it was, and the failure
path is exactly the store-wide 3-strikes sweep — every record with
`failure_count ≥ 3` is deleted and every other record is unchanged. -/
theorem update_absent_spec :
    ∀ (s : SeedStore) (url : List Char) (now : Nat), (∀ r ∈ s, r.url ≠ url) →
      update_seed_status s url true now = s ∧
      update_seed_status s url false now
        = s.filter (fun r => r.failure_count < 3) := by
  intro s url now h
  constructor
  · simp only [update_seed_status, if_true]
    rw [List.map_congr_left (fun r hr => if_neg (h r hr))]
    exact List.map_id s
  · simp only [update_seed_status, Bool.false_eq_true, if_false]
    rw [List.map_congr_left (fun r hr => if_neg (h r hr))]
    rw [show List.map (fun r : SeedRecord => r) s = s from List.map_id s]

/-- Witness for `update_absent_spec` at a concrete store. -/
theorem update_absent_spec_witness :
    update_seed_status
        [{ url := "a".data, last_checked := none, failure_count := 5,
           is_active := true },
         { url := "b".data, last_checked := some 1, failure_count := 1,
           is_active := false }] "c".data true 9
      = [{ url := "a".data, last_checked := none, failure_count := 5,
           is_active := true },
         { url := "b".data, last_checked := some 1, failure_count := 1,
           is_active := false }] ∧
    update_seed_status
        [{ url := "a".data, last_checked := none, failure_count := 5,
           is_active := true },
         { url := "b".data, last_checked := some 1, failure_count := 1,
           is_active := false }] "c".data false 9
      = [{ url := "b".data, last_checked := some 1, failure_count := 1,
           is_active := false }] := by
  have h := update_absent_spec
    [{ url := "a".data, last_checked := none, failure_count := 5,
       is_active := true },
     { url := "b".data, last_checked := some 1, failure_count := 1,
       is_active := false }] "c".data 9 (by decide)
  exact ⟨h.1, h.2⟩

/-! ### Claim C6: upsert is a no-op on present addresses -/

theorem insert_present {s : SeedStore} {url : List Char} {p : SeedRecord}
    (hp : p ∈ s) (hurl : p.url = url) : insert_or_ignore s url = s := by
  unfold insert_or_ignore
  rw [if_pos]
  exact List.any_eq_true.mpr ⟨p, hp, decide_eq_true hurl⟩

theorem insert_preserve {s : SeedStore} {url : List Char} {r : SeedRecord}
    (hr : r ∈ s) : r ∈ insert_or_ignore s url := by
  unfold insert_or_ignore
  split
  · exact hr
  · exact List.mem_append_left _ hr

theorem upsert_fold_preserve :
    ∀ (urls : List (List Char)) (s : SeedStore) (r : SeedRecord),
      r ∈ s → r ∈ urls.foldl insert_or_ignore s := by
  intro urls
  induction urls with
  | nil => exact fun s r hr => hr
  | cons u us ih => exact fun s r hr => ih _ _ (insert_preserve hr)

theorem upsert_fold_src :
    ∀ (urls : List (List Char)) (s : SeedStore) (r : SeedRecord),
      r ∈ urls.foldl insert_or_ignore s →
      r ∈ s ∨ (r.failure_count = 0 ∧ r.is_active = true ∧ r.last_checked = none) := by
  intro urls
  induction urls with
  | nil => exact fun s r hr => Or.inl hr
  | cons u us ih =>
    intro s r hr
    rcases ih _ _ hr with h | h
    · unfold insert_or_ignore at h
      revert h
      split
      · exact fun h => Or.inl h
      · intro h
        rcases List.mem_append.mp h with h | h
        · exact Or.inl h
        · rw [List.mem_singleton] at h
          subst h
          exact Or.inr ⟨rfl, rfl, rfl⟩
    · exact Or.inr h

/-- Claim C6: `add_seeds` and `update_database` never touch an existing record —
a stored record survives verbatim, and when its address is re-inserted the
store is entirely unchanged; every record they create carries
`failure_count = 0`, `is_active = true` and a NULL `last_checked`. -/
theorem upsert_spec :
    (∀ (s : SeedStore) (urls : List (List Char)) (r : SeedRecord),
      r ∈ s → r ∈ add_seeds s urls ∧ r ∈ update_database s urls) ∧
    (∀ (s : SeedStore) (url : List Char) (p : SeedRecord), p ∈ s → p.url = url →
      add_seeds s [url] = s ∧ update_database s [url] = s) ∧
    (∀ (s : SeedStore) (url : List Char), (∀ r ∈ s, r.url ≠ url) →
      add_seeds s [url]
          = s ++ [{ url := url, last_checked := none, failure_count := 0,
                    is_active := true }] ∧
        update_database s [url]
          = s ++ [{ url := url, last_checked := none, failure_count := 0,
                    is_active := true }]) ∧
    (∀ (s : SeedStore) (urls : List (List Char)) (r : SeedRecord),
      (r ∈ add_seeds s urls ∨ r ∈ update_database s urls) →
      r ∈ s ∨ (r.failure_count = 0 ∧ r.is_active = true ∧ r.last_checked = none)) := by
  have habs : ∀ (s : SeedStore) (url : List Char), (∀ r ∈ s, r.url ≠ url) →
      insert_or_ignore s url
        = s ++ [{ url := url, last_checked := none, failure_count := 0,
                  is_active := true }] := by
    intro s url h
    unfold insert_or_ignore
    rw [if_neg]
    intro hany
    obtain ⟨p, hp, hdec⟩ := List.any_eq_true.mp hany
    exact h p hp (of_decide_eq_true hdec)
  refine ⟨?_, ?_, ?_, ?_⟩
  · exact fun s urls r hr =>
      ⟨upsert_fold_preserve urls s r hr, upsert_fold_preserve urls s r hr⟩
  · intro s url p hp hurl
    constructor
    · show insert_or_ignore s url = s
      exact insert_present hp hurl
    · show insert_or_ignore s url = s
      exact insert_present hp hurl
  · intro s url h
    constructor
    · show insert_or_ignore s url = _
      exact habs s url h
    · show insert_or_ignore s url = _
      exact habs s url h
  · intro s urls r hr
    rcases hr with hr | hr
    · exact upsert_fold_src urls s r hr
    · exact upsert_fold_src urls s r hr

/-- Witness for `upsert_spec` at a concrete store. -/
theorem upsert_spec_witness :
    add_seeds
        [{ url := "a".data, last_checked := some 4, failure_count := 2,
           is_active := false }] ["a".data]
      = [{ url := "a".data, last_checked := some 4, failure_count := 2,
           is_active := false }] ∧
    add_seeds
        [{ url := "a".data, last_checked := some 4, failure_count := 2,
           is_active := false }] ["b".data]
      = [{ url := "a".data, last_checked := some 4, failure_count := 2,
           is_active := false },
         { url := "b".data, last_checked := none, failure_count := 0,
           is_active := true }] :=
  ⟨(upsert_spec.2.1
      [{ url := "a".data, last_checked := some 4, failure_count := 2,
         is_active := false }] "a".data
      { url := "a".data, last_checked := some 4, failure_count := 2,
        is_active := false } (by simp) rfl).1,
   (upsert_spec.2.2.1
      [{ url := "a".data, last_checked := some 4, failure_count := 2,
         is_active := false }] "b".data (by decide)).1⟩

/-! ### Claim C8: the keyword matcher and the match store -/

/-- The number of rows of a match store equal to the row `(u, k)`. -/
def rowCount (m : MatchStore) (u k : List Char) : Nat :=
  m.countP (fun row => decide (row = (u, k)))

theorem count_map_pair (url : List Char) (ks : List (List Char))
    (u k : List Char) :
    rowCount (ks.map (fun x => (url, x))) u k
      = if u = url then ks.countP (fun x => decide (x = k)) else 0 := by
  unfold rowCount
  rw [List.countP_map]
  by_cases hu : u = url
  · subst hu
    rw [if_pos rfl]
    refine List.countP_congr ?_
    intro x hx
    simp only [Function.comp_apply, decide_eq_decide, Prod.mk.injEq,
      true_and]
  · rw [if_neg hu]
    refine List.countP_eq_zero.mpr ?_
    intro x hx
    simp only [Function.comp_apply, decide_eq_true_eq]
    intro he
    exact hu (((Prod.mk.injEq _ _ _ _).mp he).1.symm)

/-- Claim C8, amended: the matcher returns exactly the keywords whose lowercase
form occurs in the lowercased text; the result is empty on empty content
provided no keyword is the empty string (Python counts the empty string as
a substring of everything, including of empty content); `save_match`
appends exactly one `matches` row per returned keyword, leaving all other
rows' multiplicities unchanged. -/
theorem matcher_spec :
    (∀ (keywords : List (List Char)) (text k : List Char),
      k ∈ keywordMatch keywords text ↔
        k ∈ keywords ∧ lower k <:+: lower text) ∧
    (∀ keywords : List (List Char), (∀ k ∈ keywords, k ≠ []) →
      keywordMatch keywords [] = []) ∧
    (∀ (m : MatchStore) (url : List Char) (ks : List (List Char))
        (u k : List Char),
      rowCount (save_match m url ks) u k
        = rowCount m u k
            + if u = url then ks.countP (fun x => decide (x = k)) else 0) := by
  refine ⟨?_, ?_, ?_⟩
  · intro keywords text k
    unfold keywordMatch
    rw [List.mem_filter]
    exact and_congr_right (fun _ => strContains_iff_occurs)
  · intro keywords h
    unfold keywordMatch
    rw [List.filter_eq_nil_iff]
    intro k hk
    rcases hlow : lower k with _ | ⟨c, cs⟩
    · exact absurd (List.map_eq_nil_iff.mp hlow) (h k hk)
    · simp [strContains, List.isPrefixOf]
  · intro m url ks u k
    show List.countP _ (m ++ ks.map fun x => (url, x)) = _
    rw [List.countP_append]
    exact congrArg (rowCount m u k + ·) (count_map_pair url ks u k)

/-- Witness for `matcher_spec` at concrete inputs. -/
theorem matcher_spec_witness :
    keywordMatch ["ab".data] [] = [] ∧
    ("secret".data ∈ keywordMatch ["secret".data, "other".data]
        "the SECRET page".data ↔
      ("secret".data ∈ ["secret".data, "other".data] ∧
        lower "secret".data <:+: lower "the SECRET page".data)) :=
  ⟨matcher_spec.2.1 ["ab".data] (by decide),
   matcher_spec.1 ["secret".data, "other".data] "the SECRET page".data
     "secret".data⟩

/-- Claim C8 counterexample: with the empty string as a keyword the matcher
returns a non-empty result on empty content, so "empty when there is no
content" fails as stated. -/
theorem matcher_empty_counterexample :
    keywordMatch [([] : List Char)] [] = [([] : List Char)] ∧
      keywordMatch [([] : List Char)] [] ≠ [] := by
  constructor <;> decide

/-! ### Claim C7: binary payloads are quarantined -/

/-- Claim C7: on a 200 response whose declared content type contains
`application/zip` or `application/sql`, or whose url ends in `.zip` or
`.sql`, `fetch_page` writes exactly one file — the full byte payload,
unmodified, at `quarantine/` plus the url's final path segment (or
`download.file` when that segment is empty) — and returns no text, so the
orchestrator's matcher never sees such a payload. -/
theorem quarantine_spec :
    ∀ (url : List Char) (resp : HttpResponse), resp.status = 200 →
      ("application/zip".data <:+: resp.contentType ∨
       "application/sql".data <:+: resp.contentType ∨
       ".zip".data <:+ url ∨ ".sql".data <:+ url) →
      fetch_page url (some resp)
        = (none,
           [(quarantine_dir ++ ['/'] ++
               (if pyBasename url = [] then "download.file".data
                else pyBasename url),
             resp.content)]) := by
  intro url resp hstatus hbin
  have hcond : (strContains resp.contentType "application/zip".data
      || strContains resp.contentType "application/sql".data
      || pyEndsWith url ".zip".data || pyEndsWith url ".sql".data) = true := by
    rcases hbin with h | h | h | h
    · simp [strContains_iff_occurs.mpr h]
    · simp [strContains_iff_occurs.mpr h]
    · simp [pyEndsWith, List.isSuffixOf_iff_suffix.mpr h]
    · simp [pyEndsWith, List.isSuffixOf_iff_suffix.mpr h]
  simp only [fetch_page]
  rw [hstatus, if_pos rfl, if_pos hcond]

/-- Witness for `quarantine_spec` at a concrete response. -/
theorem quarantine_spec_witness :
    fetch_page "http://x.onion/dump.zip".data
        (some { status := 200, contentType := "application/zip".data,
                content := [80, 75, 3, 4], text := "PK..".data })
      = (none, [("quarantine/dump.zip".data, [80, 75, 3, 4])]) := by
  have h := quarantine_spec "http://x.onion/dump.zip".data
    { status := 200, contentType := "application/zip".data,
      content := [80, 75, 3, 4], text := "PK..".data } rfl
    (Or.inl (strContains_iff_occurs.mp (by decide)))
  rw [h]
  decide

/-! ### Claim C9: an empty 200 body counts as no content -/

/-- Claim C9: a 200 textual (non-binary) response with an empty decoded body makes
`fetch_page` return the empty string (not `None`) and write nothing; the
orchestrator's truthiness test then routes that seed to the failure path:
its record gets `update_seed_status _ _ false`, no keyword matching happens
and no match row is written. -/
theorem empty_body_spec :
    (∀ (url : List Char) (resp : HttpResponse), resp.status = 200 →
      resp.text = [] →
      (strContains resp.contentType "application/zip".data
        || strContains resp.contentType "application/sql".data
        || pyEndsWith url ".zip".data || pyEndsWith url ".sql".data) = false →
      fetch_page url (some resp) = (some [], [])) ∧
    (∀ (fetch : List Char → Option (List Char)) (keywords : List (List Char))
        (now : Nat) (s : SeedStore) (m : MatchStore) (url : List Char),
      fetch url = some [] →
      scanLoop fetch keywords now [url] s m
        = (update_seed_status s url false now, m,
           [.fetchAttempt url, .statusFailure url, .sleepSeconds 2])) := by
  constructor
  · intro url resp hstatus htext hcond
    simp only [fetch_page]
    rw [hstatus, if_pos rfl, if_neg (by rw [hcond]; simp), htext]
  · intro fetch keywords now s m url hfetch
    rw [scanLoop, hfetch]
    rfl

/-- Witness for `empty_body_spec` at a concrete response and store. -/
theorem empty_body_spec_witness :
    fetch_page "http://x.onion/a".data
        (some { status := 200, contentType := "text/html".data,
                content := [], text := [] })
      = (some [], []) ∧
    scanLoop (fun _ => some []) ["k".data] 5 ["u".data]
        [{ url := "u".data, last_checked := none, failure_count := 0,
           is_active := true }] []
      = ([{ url := "u".data, last_checked := some 5, failure_count := 1,
            is_active := true }], [],
         [.fetchAttempt "u".data, .statusFailure "u".data, .sleepSeconds 2]) := by
  constructor
  · exact empty_body_spec.1 "http://x.onion/a".data
      { status := 200, contentType := "text/html".data, content := [], text := [] }
      rfl rfl (by decide)
  · rw [empty_body_spec.2 (fun _ => some []) ["k".data] 5 _ [] "u".data rfl]
    decide

/-! ### Claim C2: the orchestrator control loop -/

/-- The event block the specification prescribes for one seed: a fetch
attempt; then, when content is obtained (truthy), a success update followed
by a match write exactly when some keyword hits; otherwise a failure
update; then the unconditional 2-second sleep. -/
def seedTrace (fetch : List Char → Option (List Char))
    (keywords : List (List Char)) (url : List Char) : List ScanEvent :=
  ScanEvent.fetchAttempt url ::
    ((if pyTruthyStr (fetch url) then
        ScanEvent.statusSuccess url ::
          (if (keywordMatch keywords ((fetch url).getD [])).isEmpty then []
           else [ScanEvent.matchSaved url
                   (keywordMatch keywords ((fetch url).getD []))])
      else [ScanEvent.statusFailure url])
      ++ [ScanEvent.sleepSeconds 2])

/-- The url of a fetch-attempt event. -/
def fetchUrlOf : ScanEvent → Option (List Char)
  | .fetchAttempt url => some url
  | _ => none

theorem scanLoop_trace (fetch : List Char → Option (List Char))
    (keywords : List (List Char)) (now : Nat) :
    ∀ (seeds : List (List Char)) (s : SeedStore) (m : MatchStore),
      (scanLoop fetch keywords now seeds s m).2.2
        = seeds.flatMap (seedTrace fetch keywords) := by
  intro seeds
  induction seeds with
  | nil => intro s m; rfl
  | cons url rest ih =>
    intro s m
    rw [scanLoop]
    by_cases htr : pyTruthyStr (fetch url) = true
    · by_cases hfd : (keywordMatch keywords ((fetch url).getD [])).isEmpty = true
      · simp [htr, hfd, seedTrace, ih]
      · simp [htr, hfd, seedTrace, ih]
    · simp only [Bool.not_eq_true] at htr
      simp [htr, seedTrace, ih]

theorem seedTrace_fetch_url (fetch : List Char → Option (List Char))
    (keywords : List (List Char)) (url : List Char) :
    (seedTrace fetch keywords url).filterMap fetchUrlOf = [url] := by
  unfold seedTrace
  by_cases htr : pyTruthyStr (fetch url) = true
  · by_cases hfd : (keywordMatch keywords ((fetch url).getD [])).isEmpty = true
    · simp [htr, hfd, fetchUrlOf]
    · simp [htr, hfd, fetchUrlOf]
  · simp only [Bool.not_eq_true] at htr
    simp [htr, fetchUrlOf]

/-- Claim C2: a run of `run_automated_scan` over a store with no active seed is a
complete no-op (stores returned untouched, no event at all, in particular
no fetch); otherwise its event trace is exactly one `seedTrace` block per
active seed, in store order — so every active seed is fetched exactly once,
content leads to a success update then a match write exactly when a keyword
hits, no content leads to a failure update, and every seed is followed by
an unconditional 2-second sleep. -/
theorem orchestrator_spec :
    (∀ (fetch : List Char → Option (List Char)) (keywords : List (List Char))
        (now : Nat) (s : SeedStore) (m : MatchStore), listActive s = [] →
      run_automated_scan fetch keywords now s m = (s, m, [])) ∧
    (∀ (fetch : List Char → Option (List Char)) (keywords : List (List Char))
        (now : Nat) (s : SeedStore) (m : MatchStore),
      (run_automated_scan fetch keywords now s m).2.2
        = (listActive s).flatMap (seedTrace fetch keywords)) ∧
    (∀ (fetch : List Char → Option (List Char)) (keywords : List (List Char))
        (now : Nat) (s : SeedStore) (m : MatchStore),
      (run_automated_scan fetch keywords now s m).2.2.filterMap fetchUrlOf
        = listActive s) := by
  have htrace : ∀ (fetch : List Char → Option (List Char)) keywords
      (now : Nat) (s : SeedStore) (m : MatchStore),
      (run_automated_scan fetch keywords now s m).2.2
        = (listActive s).flatMap (seedTrace fetch keywords) := by
    intro fetch keywords now s m
    unfold run_automated_scan
    by_cases hempty : listActive s = []
    · simp [hempty]
    · rw [if_neg (by simp [hempty])]
      exact scanLoop_trace fetch keywords now (listActive s) s m
  refine ⟨?_, htrace, ?_⟩
  · intro fetch keywords now s m hempty
    unfold run_automated_scan
    simp [hempty]
  · intro fetch keywords now s m
    rw [htrace]
    induction listActive s with
    | nil => rfl
    | cons u us ih =>
      rw [List.flatMap_cons, List.filterMap_append, ih,
          seedTrace_fetch_url]
      rfl

/-- Witness for `orchestrator_spec` on a store whose only seed is
inactive. -/
theorem orchestrator_spec_witness :
    run_automated_scan (fun _ => some "x".data) ["x".data] 0
        [{ url := "u".data, last_checked := none, failure_count := 0,
           is_active := false }] []
      = ([{ url := "u".data, last_checked := none, failure_count := 0,
            is_active := false }], [], []) :=
  orchestrator_spec.1 (fun _ => some "x".data) ["x".data] 0
    [{ url := "u".data, last_checked := none, failure_count := 0,
       is_active := false }] [] (by decide)

end DarkSpider
